import Mathlib

/-!
Verification of the DocsFlow documentation toolchain.

This file gives a shallow embedding of the three scripts of the repository
(src/scripts/lint_docs.py, src/scripts/validate_yaml.py,
src/scripts/upload_to_fluidtopics.py) and proves or refutes the frozen
claims about them.  Pure functions of the Python code become Lean
functions; the effectful upload workflow is embedded as functions over an
explicit environment (directory trees, one HTTP response, a stream of
status responses) together with event traces and counters for the
observable effects (archive events, POST requests, status queries, waits,
cleanup invocations).  Text processing is carried out on character lists
so that every definition evaluates by kernel reduction.
-/

namespace DocsFlow

/-! ## Python string helpers

Helpers that mirror the Python string primitives used by the scripts. -/

/-- Characters the Python str.strip () default removes. -/
def isPySpace (c : Char) : Bool :=
  c == ' ' || c == '\t' || c == '\n' || c == '\r' || c == '\x0b' || c == '\x0c'

/-- Python str.strip (): remove leading and trailing whitespace. -/
def pyStripChars (s : List Char) : List Char :=
  (s.dropWhile isPySpace).reverse.dropWhile isPySpace |>.reverse

/-- Split a character list on every occurrence of a separator character,
as the Python str.split does (an empty input yields one empty field). -/
def splitOnChar (sep : Char) : List Char → List (List Char)
  | [] => [[]]
  | c :: rest =>
    let r := splitOnChar sep rest
    if c == sep then [] :: r
    else
      match r with
      | l :: ls => (c :: l) :: ls
      | [] => [[c]]

/-- Python content.split on newline, line by line as character lists. -/
def pyLines (content : String) : List (List Char) :=
  splitOnChar '\n' content.data

/-- Does the character list start with the given pattern. -/
def startsWithChars : List Char → List Char → Bool
  | [], _ => true
  | _ :: _, [] => false
  | p :: ps, c :: cs => p == c && startsWithChars ps cs

/-- Does the character list end with the given pattern. -/
def endsWithChars (pat s : List Char) : Bool :=
  startsWithChars pat.reverse s.reverse

/-- Python enumerate with a given start index. -/
def enumFrom {α : Type} : Nat → List α → List (Nat × α)
  | _, [] => []
  | i, a :: as => (i, a) :: enumFrom (i + 1) as

/-! ## Markdown linter (src/scripts/lint_docs.py)

The DocumentLinter accumulates errors and warnings across files; each
check returns its error messages, its warning messages, and its success
flag, in the order the Python code would append them. -/

/-- Accumulated errors and warnings of a lint or validation run
(the self.errors and self.warnings lists of the Python classes). -/
structure Report where
  errors : List String
  warnings : List String
deriving DecidableEq, Repr

/-- DocumentLinter.check_heading_structure: headings are all lines that
start with a hash mark; each is (level, text, line number). -/
def headingsOf (content : String) : List (Nat × String × Nat) :=
  (enumFrom 1 (pyLines content)).filterMap fun p =>
    if startsWithChars ['#'] p.2 then
      some ((p.2.takeWhile fun c => c == '#').length,
            String.mk (pyStripChars (p.2.dropWhile fun c => c == '#')), p.1)
    else none

/-- Heading-hierarchy warnings for consecutive headings whose level jumps
by more than one (DocumentLinter.check_heading_structure, second loop). -/
def hierarchyWarns (path : String) : List (Nat × String × Nat) → List String
  | a :: b :: rest =>
      (if b.1 > a.1 + 1 then
        [s!"⚠️  {path}: Line {b.2.2}: Heading level jumps from H{a.1} to H{b.1}"]
       else [])
        ++ hierarchyWarns path (b :: rest)
  | _ => []

/-- DocumentLinter.check_heading_structure: error when the number of H1
headings differs from one; returns (errors, warnings, success). -/
def checkHeadingStructure (path content : String) :
    List String × List String × Bool :=
  let hs := headingsOf content
  let h1 := hs.countP fun h => h.1 == 1
  (if h1 == 1 then []
   else [s!"❌ {path}: Found {h1} H1 headings, should have exactly 1"],
   hierarchyWarns path hs,
   h1 == 1)

/-- The loop of DocumentLinter.check_code_blocks: scan the enumerated
lines tracking whether we are inside a fenced block; returns the
missing-language warnings and the final in-block flag. -/
def codeBlockScan (path : String) :
    List (Nat × List Char) → Bool → List String × Bool
  | [], inB => ([], inB)
  | (i, line) :: rest, inB =>
    if startsWithChars ['`', '`', '`'] line then
      if !inB then
        let lang := pyStripChars (line.drop 3)
        let w :=
          if lang.isEmpty && line == ['`', '`', '`'] then
            [s!"⚠️  {path}: Line {i}: Code block missing language specification"]
          else []
        let r := codeBlockScan path rest true
        (w ++ r.1, r.2)
      else
        codeBlockScan path rest false
    else codeBlockScan path rest inB

/-- DocumentLinter.check_code_blocks: error exactly when a fenced block
is left unclosed at the end of the file. -/
def checkCodeBlocks (path content : String) :
    List String × List String × Bool :=
  let r := codeBlockScan path (enumFrom 1 (pyLines content)) false
  (if r.2 then [s!"❌ {path}: Unclosed code block found"] else [],
   r.1,
   !r.2)

/-- One step of the regex scan for Markdown links: at the current
position try to match a bracketed link text (one or more characters that
are not a closing bracket) immediately followed by a parenthesised url
(one or more characters that are not a closing parenthesis). -/
def matchLink : List Char → Option (List Char × List Char × List Char)
  | '[' :: rest =>
    let text := rest.takeWhile fun c => c != ']'
    if text.isEmpty then none
    else
      match rest.dropWhile (fun c => c != ']') with
      | ']' :: '(' :: rest3 =>
        let url := rest3.takeWhile fun c => c != ')'
        if url.isEmpty then none
        else
          match rest3.dropWhile (fun c => c != ')') with
          | ')' :: rest5 => some (text, url, rest5)
          | _ => none
      | _ => none
  | _ => none

/-- Left-to-right non-overlapping scan, as re.findall does: on a match
continue after the matched span, otherwise advance one character.  The
fuel argument (instantiated with the length of the input) bounds the
recursion. -/
def findLinksAux : Nat → List Char → List (List Char × List Char)
  | 0, _ => []
  | _ + 1, [] => []
  | fuel + 1, c :: rest =>
    match matchLink (c :: rest) with
    | some r => (r.1, r.2.1) :: findLinksAux fuel r.2.2
    | none => findLinksAux fuel rest

/-- All Markdown links (text, url) of the content, in scan order. -/
def findLinks (content : String) : List (List Char × List Char) :=
  findLinksAux content.data.length content.data

/-- The generic link phrases rejected by DocumentLinter.check_links. -/
def genericPhrases : List String := ["click here", "here", "link", "read more"]

/-- The loop of DocumentLinter.check_links over the extracted links.
The filesystem is an existence predicate over path strings; internal
targets live under the docs directory. -/
def linkScan (fsEx : String → Bool) (path : String) :
    List (List Char × List Char) → List String × List String × Bool
  | [] => ([], [], true)
  | (text, url) :: rest =>
    let w :=
      if genericPhrases.contains (String.mk (text.map Char.toLower)) then
        [s!"⚠️  {path}: Non-descriptive link text: {String.mk text}"]
      else []
    let e :=
      if endsWithChars ['.', 'm', 'd'] url && !startsWithChars ['h', 't', 't', 'p'] url
          && !fsEx ("docs/" ++ String.mk url) then
        [s!"❌ {path}: Broken internal link: {String.mk url}"]
      else []
    let r := linkScan fsEx path rest
    (e ++ r.1, w ++ r.2.1, e.isEmpty && r.2.2)

/-- DocumentLinter.check_links. -/
def checkLinks (fsEx : String → Bool) (path content : String) :
    List String × List String × Bool :=
  linkScan fsEx path (findLinks content)

/-- DocumentLinter.check_line_endings: the file must end with a newline. -/
def checkLineEndings (path content : String) :
    List String × List String × Bool :=
  if !(match content.data.getLast? with
       | some c => c == '\n'
       | none => false) then
    ([s!"❌ {path}: File should end with a newline"], [], false)
  else ([], [], true)

/-- A line matching the bullet regex: optional whitespace, an asterisk,
then a whitespace character. -/
def isStarBullet (line : List Char) : Bool :=
  match line.dropWhile isPySpace with
  | '*' :: c :: _ => isPySpace c
  | _ => false

/-- DocumentLinter.check_list_formatting: warnings only, always succeeds. -/
def checkListFormatting (path content : String) :
    List String × List String × Bool :=
  ([],
   (enumFrom 1 (pyLines content)).filterMap fun p =>
     if isStarBullet p.2 then
       some s!"⚠️  {path}: Line {p.1}: Use hyphens (-) instead of asterisks (*) for bullets"
     else none,
   true)

/-- DocumentLinter.lint_file: run the five checks in order, accumulating
their errors and warnings; the file succeeds only if every check does. -/
def lintFile (fsEx : String → Bool) (path content : String) : Report × Bool :=
  let c1 := checkHeadingStructure path content
  let c2 := checkCodeBlocks path content
  let c3 := checkLinks fsEx path content
  let c4 := checkLineEndings path content
  let c5 := checkListFormatting path content
  (⟨c1.1 ++ c2.1 ++ c3.1 ++ c4.1 ++ c5.1,
    c1.2.1 ++ c2.2.1 ++ c3.2.1 ++ c4.2.1 ++ c5.2.1⟩,
   c1.2.2 && c2.2.2 && c3.2.2 && c4.2.2 && c5.2.2)

/-- The loop of DocumentLinter.lint_all_files over the discovered files,
threading the shared report and the run-level success flag. -/
def lintRunGo (fsEx : String → Bool) :
    List (String × String) → Report → Bool → Report × Bool
  | [], rep, ok => (rep, ok)
  | f :: rest, rep, ok =>
    let r := lintFile fsEx f.1 f.2
    lintRunGo fsEx rest
      ⟨rep.errors ++ r.1.errors, rep.warnings ++ r.1.warnings⟩
      (ok && r.2)

/-- DocumentLinter.lint_all_files: an empty file list fails immediately
with an empty report; otherwise every file is linted in order. -/
def lintAllFiles (fsEx : String → Bool) (files : List (String × String)) :
    Report × Bool :=
  if files.isEmpty then (⟨[], []⟩, false)
  else lintRunGo fsEx files ⟨[], []⟩ true

/-- Concatenation of the per-file linter error messages, each file linted
independently of the others. -/
def lintErrorsConcat (fsEx : String → Bool) : List (String × String) → List String
  | [] => []
  | f :: rest => (lintFile fsEx f.1 f.2).1.errors ++ lintErrorsConcat fsEx rest

/-! ## YAML validator (src/scripts/validate_yaml.py)

YAML documents are modelled as trees of strings, sequences and mappings;
scalar values are represented by their string form, which is the only
shape the validators distinguish.  Each parsed file is a mapping of
string keys to values (the declared Dict contract of the validators).
The single place where the Python code would raise an uncaught TypeError
(joining a path with a non-string docs_dir value) is modelled as a crash
outcome (none) that aborts the whole run. -/

/-- A YAML value as seen by the validators. -/
inductive Yaml where
  | str : String → Yaml
  | list : List Yaml → Yaml
  | dict : List (String × Yaml) → Yaml

/-- The result of reading and parsing one YAML file, the input to
YAMLValidator.validate_file. -/
inductive YamlInput where
  | readError
  | parseError
  | empty
  | doc : List (String × Yaml) → YamlInput

/-- Required-field errors of YAMLValidator.validate_mkdocs_config. -/
def mkdocsMissingErrs (path : String) (data : List (String × Yaml)) :
    List String :=
  (if (List.lookup "site_name" data).isNone then
    [s!"❌ {path}: Missing required field: site_name"]
   else [])
  ++ (if (List.lookup "docs_dir" data).isNone then
    [s!"❌ {path}: Missing required field: docs_dir"]
   else [])

/-- The site_name type check: present values must be non-blank strings. -/
def mkdocsSiteNameErrs (path : String) (data : List (String × Yaml)) :
    List String :=
  match List.lookup "site_name" data with
  | none => []
  | some (Yaml.str s) =>
    if (pyStripChars s.data).isEmpty then
      [s!"❌ {path}: site_name must be a non-empty string"]
    else []
  | some _ => [s!"❌ {path}: site_name must be a non-empty string"]

/-- A present docs_dir value that is not a string makes the Python code
join a path with a non-string, raising an uncaught TypeError. -/
def mkdocsDirCrashes (data : List (String × Yaml)) : Bool :=
  match List.lookup "docs_dir" data with
  | some (Yaml.list _) => true
  | some (Yaml.dict _) => true
  | _ => false

/-- The docs_dir existence check, for string values. -/
def mkdocsDocsDirErrs (fsEx : String → Bool) (path : String)
    (data : List (String × Yaml)) : List String :=
  match List.lookup "docs_dir" data with
  | some (Yaml.str s) =>
    if fsEx s then [] else [s!"❌ {path}: docs_dir {s} does not exist"]
  | _ => []

/-- YAMLValidator.validate_navigation: only dictionary items contribute;
string values ending in .md must exist under the docs directory. -/
def navScan (fsEx : String → Bool) (path : String) :
    List Yaml → List String × Bool
  | [] => ([], true)
  | Yaml.dict es :: rest =>
    let here := es.filterMap fun kv =>
      match kv.2 with
      | Yaml.str s =>
        if endsWithChars ['.', 'm', 'd'] s.data && !fsEx ("docs/" ++ s) then
          some s!"❌ {path}: Navigation references non-existent file: {s}"
        else none
      | _ => none
    let r := navScan fsEx path rest
    (here ++ r.1, here.isEmpty && r.2)
  | _ :: rest => navScan fsEx path rest

/-- Navigation errors of validate_mkdocs_config: checked only when a nav
entry is present and is a sequence (iterating any other value visits no
dictionary item). -/
def mkdocsNav (fsEx : String → Bool) (path : String)
    (data : List (String × Yaml)) : List String × Bool :=
  match List.lookup "nav" data with
  | some (Yaml.list items) => navScan fsEx path items
  | _ => ([], true)

/-- The theme check of validate_mkdocs_config: dictionaries without a
name field warn; sequences are neither strings nor dictionaries and are
errors; returns (errors, warnings, success). -/
def mkdocsTheme (path : String) (data : List (String × Yaml)) :
    List String × List String × Bool :=
  match List.lookup "theme" data with
  | none => ([], [], true)
  | some (Yaml.dict es) =>
    ([],
     if (List.lookup "name" es).isNone then
       [s!"⚠️  {path}: Theme configuration missing name field"]
     else [],
     true)
  | some (Yaml.str _) => ([], [], true)
  | some (Yaml.list _) =>
    ([s!"❌ {path}: Theme must be a string or dictionary"], [], false)

/-- YAMLValidator.validate_mkdocs_config: errors in execution order, the
theme warning, and the success flag; none when the docs_dir path join
would raise. -/
def validateMkdocs (fsEx : String → Bool) (path : String)
    (data : List (String × Yaml)) :
    Option (List String × List String × Bool) :=
  if mkdocsDirCrashes data then none
  else some
    (mkdocsMissingErrs path data ++ mkdocsSiteNameErrs path data
       ++ mkdocsDocsDirErrs fsEx path data ++ (mkdocsNav fsEx path data).1
       ++ (mkdocsTheme path data).1,
     (mkdocsTheme path data).2.1,
     (mkdocsMissingErrs path data).isEmpty
       && (mkdocsSiteNameErrs path data).isEmpty
       && (mkdocsDocsDirErrs fsEx path data).isEmpty
       && (mkdocsNav fsEx path data).2
       && (mkdocsTheme path data).2.2)

/-- Required-field errors of YAMLValidator.validate_github_workflow. -/
def workflowMissingErrs (path : String) (data : List (String × Yaml)) :
    List String :=
  (if (List.lookup "name" data).isNone then
    [s!"❌ {path}: Missing required field: name"]
   else [])
  ++ (if (List.lookup "on" data).isNone then
    [s!"❌ {path}: Missing required field: on"]
   else [])
  ++ (if (List.lookup "jobs" data).isNone then
    [s!"❌ {path}: Missing required field: jobs"]
   else [])

/-- The per-job loop of validate_github_workflow: every job must be a
dictionary carrying runs-on and steps. -/
def jobScan (path : String) : List (String × Yaml) → List String × Bool
  | [] => ([], true)
  | (name, Yaml.dict cfg) :: rest =>
    let e1 :=
      if (List.lookup "runs-on" cfg).isNone then
        [s!"❌ {path}: Job {name} missing runs-on field"]
      else []
    let e2 :=
      if (List.lookup "steps" cfg).isNone then
        [s!"❌ {path}: Job {name} missing steps field"]
      else []
    let r := jobScan path rest
    (e1 ++ e2 ++ r.1, e1.isEmpty && e2.isEmpty && r.2)
  | (name, _) :: rest =>
    let r := jobScan path rest
    (s!"❌ {path}: Job {name} must be a dictionary" :: r.1, false)

/-- The jobs structure check of validate_github_workflow. -/
def workflowJobs (path : String) (data : List (String × Yaml)) :
    List String × Bool :=
  match List.lookup "jobs" data with
  | none => ([], true)
  | some (Yaml.dict jobs) => jobScan path jobs
  | some _ => ([s!"❌ {path}: jobs must be a dictionary"], false)

/-- YAMLValidator.validate_github_workflow. -/
def validateGithubWorkflow (path : String) (data : List (String × Yaml)) :
    List String × List String × Bool :=
  (workflowMissingErrs path data ++ (workflowJobs path data).1,
   [],
   (workflowMissingErrs path data).isEmpty && (workflowJobs path data).2)

/-- The per-service loop of validate_docker_compose: every service must
be a dictionary carrying image or build. -/
def serviceScan (path : String) : List (String × Yaml) → List String × Bool
  | [] => ([], true)
  | (name, Yaml.dict cfg) :: rest =>
    let e :=
      if (List.lookup "image" cfg).isNone && (List.lookup "build" cfg).isNone then
        [s!"❌ {path}: Service {name} must have either image or build"]
      else []
    let r := serviceScan path rest
    (e ++ r.1, e.isEmpty && r.2)
  | (name, _) :: rest =>
    let r := serviceScan path rest
    (s!"❌ {path}: Service {name} must be a dictionary" :: r.1, false)

/-- The services check of validate_docker_compose, including the early
returns for a missing or non-dictionary services entry. -/
def composeServices (path : String) (data : List (String × Yaml)) :
    List String × Bool :=
  match List.lookup "services" data with
  | none => ([s!"❌ {path}: Missing required services field"], false)
  | some (Yaml.dict svcs) => serviceScan path svcs
  | some _ => ([s!"❌ {path}: services must be a dictionary"], false)

/-- YAMLValidator.validate_docker_compose: the version warning is issued
before the services check. -/
def validateDockerCompose (path : String) (data : List (String × Yaml)) :
    List String × List String × Bool :=
  ((composeServices path data).1,
   if (List.lookup "version" data).isNone then
     [s!"⚠️  {path}: Consider specifying a version field"]
   else [],
   (composeServices path data).2)

/-- The final path component, as Path.name. -/
def fileNameOf (path : String) : String :=
  match (splitOnChar '/' path.data).reverse with
  | n :: _ => String.mk n
  | [] => path

/-- Path.match against the workflow glob: the path must end with the
components .github, workflows and a file name ending in .yml. -/
def isWorkflowPath (path : String) : Bool :=
  match (splitOnChar '/' path.data).reverse with
  | n :: d2 :: d1 :: _ =>
    String.mk d1 == ".github" && String.mk d2 == "workflows"
      && endsWithChars ['.', 'y', 'm', 'l'] n
  | _ => false

/-- YAMLValidator.run_specific_validation: dispatch on the file name. -/
def runSpecificValidation (fsEx : String → Bool) (path : String)
    (data : List (String × Yaml)) :
    Option (List String × List String × Bool) :=
  if fileNameOf path == "mkdocs.yml" then validateMkdocs fsEx path data
  else if isWorkflowPath path then some (validateGithubWorkflow path data)
  else if fileNameOf path == "docker-compose.yml" then
    some (validateDockerCompose path data)
  else some ([], [], true)

/-- YAMLValidator.validate_file. -/
def validateFile (fsEx : String → Bool) (path : String) (input : YamlInput) :
    Option (Report × Bool) :=
  match input with
  | YamlInput.readError =>
    some (⟨[s!"❌ {path}: Failed to read file"], []⟩, false)
  | YamlInput.parseError =>
    some (⟨[s!"❌ {path}: Invalid YAML syntax"], []⟩, false)
  | YamlInput.empty => some (⟨[], [s!"⚠️  {path}: Empty YAML file"]⟩, true)
  | YamlInput.doc data =>
    match runSpecificValidation fsEx path data with
    | none => none
    | some r => some (⟨r.1, r.2.1⟩, r.2.2)

/-- The loop of YAMLValidator.validate_all_files; a crash aborts it. -/
def yamlRunGo (fsEx : String → Bool) :
    List (String × YamlInput) → Report → Bool → Option (Report × Bool)
  | [], rep, ok => some (rep, ok)
  | f :: rest, rep, ok =>
    match validateFile fsEx f.1 f.2 with
    | none => none
    | some r =>
      yamlRunGo fsEx rest
        ⟨rep.errors ++ r.1.errors, rep.warnings ++ r.1.warnings⟩
        (ok && r.2)

/-- YAMLValidator.validate_all_files: an empty file list fails
immediately; otherwise every file is validated in order. -/
def validateAllFiles (fsEx : String → Bool)
    (files : List (String × YamlInput)) : Option (Report × Bool) :=
  if files.isEmpty then some (⟨[], []⟩, false)
  else yamlRunGo fsEx files ⟨[], []⟩ true

/-- The error messages one file contributes to a validation run. -/
def yamlFileErrors (fsEx : String → Bool) (f : String × YamlInput) :
    List String :=
  match validateFile fsEx f.1 f.2 with
  | none => []
  | some r => r.1.errors

/-- The per-file success flag of a validation run. -/
def yamlFileOk (fsEx : String → Bool) (f : String × YamlInput) : Bool :=
  match validateFile fsEx f.1 f.2 with
  | none => false
  | some r => r.2

/-- Concatenation of the per-file validator error messages. -/
def yamlErrorsConcat (fsEx : String → Bool) :
    List (String × YamlInput) → List String
  | [] => []
  | f :: rest => yamlFileErrors fsEx f ++ yamlErrorsConcat fsEx rest

/-! ## Uploader (src/scripts/upload_to_fluidtopics.py)

The FluidTopicsUploader reads three environment variables, packages a
fixed directory into an archive, uploads it with one POST, polls the
status endpoint up to thirty times, and deletes the archive.  Directory
trees, the HTTP response and the status-response stream are the explicit
environment of the embedding. -/

mutual

/-- A directory: its file names and its subdirectories, in the order the
filesystem walk yields them. -/
inductive DirTree : Type where
  | node : (files : List String) → (subdirs : SubdirList) → DirTree

/-- The named subdirectories of a directory. -/
inductive SubdirList : Type where
  | nil : SubdirList
  | cons : (name : String) → (tree : DirTree) → (rest : SubdirList) → SubdirList

end

/-- A name beginning with the hidden-file marker. -/
def isHiddenName (s : String) : Bool :=
  match s.data with
  | '.' :: _ => true
  | _ => false

mutual

/-- The packaging walk of FluidTopicsUploader.create_package: visit the
files of the directory (skipping hidden ones), then the non-hidden
subdirectories; archive entry names are paths relative to the source
root, kept as component lists. -/
def packFilesAt : List String → DirTree → List (List String)
  | pre, DirTree.node files subdirs =>
      ((files.filter fun f => !isHiddenName f).map fun f => pre ++ [f])
        ++ packSubdirsAt pre subdirs

/-- The walk over a list of subdirectories, pruning hidden names. -/
def packSubdirsAt : List String → SubdirList → List (List String)
  | _, SubdirList.nil => []
  | pre, SubdirList.cons name t rest =>
      (if isHiddenName name then [] else packFilesAt (pre ++ [name]) t)
        ++ packSubdirsAt pre rest

end

/-- Archive entries of a whole source tree. -/
def packFiles (t : DirTree) : List (List String) :=
  packFilesAt [] t

mutual

/-- Modelled from the spec: the number of non-hidden files of a tree,
where a hidden directory hides all of its descendants. -/
def specVisibleFileCount : DirTree → Nat
  | DirTree.node files subdirs =>
      (files.filter fun f => !isHiddenName f).length
        + specVisibleFileCountSub subdirs

/-- Modelled from the spec: the non-hidden file count of subdirectories. -/
def specVisibleFileCountSub : SubdirList → Nat
  | SubdirList.nil => 0
  | SubdirList.cons name t rest =>
      (if isHiddenName name then 0 else specVisibleFileCount t)
        + specVisibleFileCountSub rest

end

/-- Observable events of create_package, in execution order: the archive
is opened, entries are written, the checksum is computed, the archive is
closed when the with-block is left. -/
inductive PkgEvent where
  | openArchive
  | addFile : List String → PkgEvent
  | computeChecksum
  | closeArchive
deriving DecidableEq, Repr

/-- The source-directory selection of create_package: the build directory
(site) when it exists, otherwise the docs directory; true marks site. -/
def chosenSource (site docs : Option DirTree) : Option (Bool × DirTree) :=
  match site with
  | some t => some (true, t)
  | none =>
    match docs with
    | some t => some (false, t)
    | none => none

/-- Whether create_package succeeds: exactly when a source directory
exists. -/
def createPackageOk (site docs : Option DirTree) : Bool :=
  (chosenSource site docs).isSome

/-- The event trace of create_package: nothing when no source directory
exists; otherwise the archive is opened, the walk adds the entries, the
checksum is computed inside the with-block, and the archive writer is
closed when the block is left. -/
def createPackageTrace (site docs : Option DirTree) : List PkgEvent :=
  match chosenSource site docs with
  | none => []
  | some (_, t) =>
    PkgEvent.openArchive ::
      ((packFiles t).map PkgEvent.addFile
        ++ [PkgEvent.computeChecksum, PkgEvent.closeArchive])

/-- One parsed HTTP response of the upload POST. -/
structure HttpResponse where
  statusCode : Nat
  jsonUploadId : Option String
  jsonStatus : Option String
  body : String
deriving DecidableEq, Repr

/-- The result of the single upload POST. -/
inductive HttpResult where
  | resp : HttpResponse → HttpResult
  | timeout
  | connectionError
deriving DecidableEq, Repr

/-- The typed upload outcome of the spec. -/
inductive UploadOutcome where
  | success : Option String → Option String → UploadOutcome
  | authFailure
  | payloadTooLarge
  | serverError : Nat → String → UploadOutcome
  | networkTimeout
  | connectionFailure
deriving DecidableEq, Repr

/-- The status-code dispatch of FluidTopicsUploader.upload_package:
200 is success, 401 authentication failure, 413 payload too large, any
other code a server error carrying the code and body; request timeouts
and connection errors are their own outcomes. -/
def classifyResponse : HttpResult → UploadOutcome
  | HttpResult.resp r =>
    if r.statusCode == 200 then
      UploadOutcome.success r.jsonUploadId r.jsonStatus
    else if r.statusCode == 401 then UploadOutcome.authFailure
    else if r.statusCode == 413 then UploadOutcome.payloadTooLarge
    else UploadOutcome.serverError r.statusCode r.body
  | HttpResult.timeout => UploadOutcome.networkTimeout
  | HttpResult.connectionError => UploadOutcome.connectionFailure

/-- The number of POST requests upload_package performs: none when the
package file is missing, exactly one otherwise (there is no retry loop). -/
def uploadPostCount (pkgExists : Bool) : Nat :=
  if pkgExists then 1 else 0

/-- The JSON body of one status query. -/
structure StatusData where
  status : Option String
  publicationUrl : Option String
  errorMsg : Option String
deriving DecidableEq, Repr

/-- The result of one status query: a parsed 200 response, a non-200
response, or a raised request error. -/
inductive PollResponse where
  | ok : StatusData → PollResponse
  | httpFailure : Nat → PollResponse
  | exn
deriving DecidableEq, Repr

/-- The terminal result of monitor_processing: completion (with the
publication url the code surfaces), failure (with the reported error),
or exhaustion of the attempt budget. -/
inductive PollOutcome where
  | completed : Option String → PollOutcome
  | failed : Option String → PollOutcome
  | pollTimeout
deriving DecidableEq, Repr

/-- The observable behaviour of one polling run: its outcome, how many
status queries it made, and how many fixed-interval waits it performed. -/
structure PollRun where
  outcome : PollOutcome
  queries : Nat
  sleeps : Nat
deriving DecidableEq, Repr

/-- The attempt budget of monitor_processing. -/
def maxAttempts : Nat := 30

/-- The while-loop of FluidTopicsUploader.monitor_processing: the first
argument is the remaining attempt budget, the second the number of
attempts already made (which is also the index of the next query and the
number of waits so far).  A completed or failed status label returns
immediately; every other query result waits the fixed interval and
consumes one attempt. -/
def monitorGo (env : Nat → PollResponse) : Nat → Nat → PollRun
  | 0, i => ⟨PollOutcome.pollTimeout, i, i⟩
  | r + 1, i =>
    match env i with
    | PollResponse.ok sd =>
      if sd.status.getD "unknown" == "completed" then
        ⟨PollOutcome.completed sd.publicationUrl, i + 1, i⟩
      else if sd.status.getD "unknown" == "failed" then
        ⟨PollOutcome.failed sd.errorMsg, i + 1, i⟩
      else monitorGo env r (i + 1)
    | PollResponse.httpFailure _ => monitorGo env r (i + 1)
    | PollResponse.exn => monitorGo env r (i + 1)

/-- FluidTopicsUploader.monitor_processing. -/
def monitorProcessing (env : Nat → PollResponse) : PollRun :=
  monitorGo env maxAttempts 0

/-- The boolean monitor_processing returns to upload_package. -/
def monitorOk (env : Nat → PollResponse) : Bool :=
  match (monitorProcessing env).outcome with
  | PollOutcome.completed _ => true
  | _ => false

/-- The status label a query observes, when its response parsed; absent
labels default to unknown, as status_data.get does. -/
def isLabelAt (env : Nat → PollResponse) (i : Nat) (l : String) : Bool :=
  match env i with
  | PollResponse.ok sd => sd.status.getD "unknown" == l
  | _ => false

/-- The boolean FluidTopicsUploader.upload_package returns: false when
the package file is missing; on a 200 response carrying an upload id the
poller decides; a 200 response without an id is success; every other
outcome is failure. -/
def uploadPackageResult (pkgExists : Bool) (r : HttpResult)
    (env : Nat → PollResponse) : Bool :=
  if !pkgExists then false
  else
    match classifyResponse r with
    | UploadOutcome.success (some _) _ => monitorOk env
    | UploadOutcome.success none _ => true
    | _ => false

/-- Python str.rstrip with a slash: drop trailing slash characters. -/
def pyRstripSlash (s : String) : String :=
  String.mk ((s.data.reverse.dropWhile fun c => c == '/').reverse)

/-- The configuration stored by FluidTopicsUploader.__init__. -/
structure UploaderConfig where
  baseUrl : String
  username : String
  password : String
deriving DecidableEq, Repr

/-- FluidTopicsUploader.__init__ over the three environment variables
(absent reads default to the empty string, the url is stripped of
trailing slashes before the check): raises unless all three stored
values are truthy. -/
def initUploader (fluidUrl fluidUser fluidPass : Option String) :
    Except String UploaderConfig :=
  if pyRstripSlash (fluidUrl.getD "") == "" || fluidUser.getD "" == ""
      || fluidPass.getD "" == "" then
    Except.error "Missing required environment variables: FLUID_URL, FLUID_USER, FLUID_PASS"
  else
    Except.ok ⟨pyRstripSlash (fluidUrl.getD ""), fluidUser.getD "", fluidPass.getD ""⟩

/-- Whether construction raised. -/
def isCfgError : Except String UploaderConfig → Bool
  | Except.error _ => true
  | Except.ok _ => false

/-- The environment of one deployment run. -/
structure World where
  site : Option DirTree
  docs : Option DirTree
  uploadResp : HttpResult
  pollEnv : Nat → PollResponse

/-- FluidTopicsUploader.deploy: create the package (aborting with
failure when that fails), upload, then clean up; returns the success
flag and the number of cleanup invocations of the run. -/
def deployRun (w : World) : Bool × Nat :=
  if createPackageOk w.site w.docs then
    (uploadPackageResult true w.uploadResp w.pollEnv, 1)
  else (false, 0)

/-- The number of POST requests a deployment performs. -/
def deployPosts (w : World) : Nat :=
  if createPackageOk w.site w.docs then uploadPostCount true else 0

/-- The main entry point of the upload script, as far as network
activity is concerned: a construction failure is caught before deploy is
ever called, so no POST happens. -/
def mainNetworkPosts (fluidUrl fluidUser fluidPass : Option String)
    (w : World) : Nat :=
  match initUploader fluidUrl fluidUser fluidPass with
  | Except.error _ => 0
  | Except.ok _ => deployPosts w

/-! ## Claim predicates and concrete environments

The ordering property a claim states about the packaging trace, the
spec-side count of real H1 headings, and the concrete worlds, trees,
status streams and file lists the counterexamples and witnesses
evaluate. -/

/-- The ordering property claimed for create_package: every digest
computation comes after every close of the archive writer. -/
def ChecksumOnlyAfterClose (t : List PkgEvent) : Prop :=
  ∀ i j : Nat, t[i]? = some PkgEvent.computeChecksum →
    t[j]? = some PkgEvent.closeArchive → j < i

/-- Modelled from the claim: the number of real Markdown H1 headings of a
file, counting level-one hash lines only outside fenced code blocks,
with fences toggling exactly as check_code_blocks tracks them. -/
def realH1CountGo : List (List Char) → Bool → Nat
  | [], _ => 0
  | l :: rest, inB =>
    if startsWithChars ['`', '`', '`'] l then realH1CountGo rest (!inB)
    else
      (if !inB && startsWithChars ['#'] l
          && (l.takeWhile fun c => c == '#').length == 1 then 1 else 0)
        + realH1CountGo rest inB

/-- The number of real Markdown H1 headings of a file. -/
def realH1Count (content : String) : Nat :=
  realH1CountGo (pyLines content) false

/-- A file with exactly one real H1 and a hash comment line inside a
fenced code block. -/
def fencedDoc : String := "# Title\n\n```bash\n# comment\n```\n"

/-- A world in which neither the site nor the docs directory exists. -/
def noSourceWorld : World :=
  ⟨none, none, HttpResult.timeout, fun _ => PollResponse.exn⟩

/-- A world with only a docs directory holding one file. -/
def docsOnlyWorld : World :=
  ⟨none, some (DirTree.node ["index.md"] SubdirList.nil),
   HttpResult.timeout, fun _ => PollResponse.exn⟩

/-- A site tree for the fallback witness. -/
def siteTree : DirTree := DirTree.node ["index.html"] SubdirList.nil

/-- A docs tree for the fallback witness. -/
def docsTree : DirTree := DirTree.node ["index.md"] SubdirList.nil

/-- The status stream that always reports processing. -/
def allProcessingEnv : Nat → PollResponse := fun _ =>
  PollResponse.ok ⟨some "processing", none, none⟩

/-- The status stream of scenario D: processing for the first five
queries, then completed with a publication url. -/
def scenarioDEnv : Nat → PollResponse := fun i =>
  if i < 5 then PollResponse.ok ⟨some "processing", none, none⟩
  else PollResponse.ok ⟨some "completed", some "https://example.com/docs", none⟩

/-- The tree used by the packaging witness: one hidden file, one hidden
subdirectory with a file below it, one visible subdirectory. -/
def packWitnessTree : DirTree :=
  DirTree.node ["a.md", ".hidden"]
    (SubdirList.cons ".git" (DirTree.node ["x"] SubdirList.nil)
      (SubdirList.cons "sub" (DirTree.node ["b.md"] SubdirList.nil)
        SubdirList.nil))

/-- The linter input of the accumulation witness: the first file records
errors, the second is clean. -/
def lintWitnessFiles : List (String × String) :=
  [("a.md", "x"), ("b.md", "# B\nok\n")]

/-- The validator input of the accumulation witness: the mkdocs file
misses both required fields, the second file is empty. -/
def yamlWitnessFiles : List (String × YamlInput) :=
  [("mkdocs.yml", YamlInput.doc []), ("app.yml", YamlInput.empty)]

/-! ## C1: cleanup exactly once per deploy invocation -/

/-- C1, counterexample.  The claim says the cleanup step runs exactly
once per deploy () invocation even when package creation fails outright.
In the run over a world with no source directory, deploy () returns
failure from the early create-package branch and the cleanup count of the
run is zero, not one. -/
theorem C1_counterexample : (deployRun noSourceWorld).2 ≠ 1 := by decide

/-- C1, amended.  Cleanup runs exactly once per deploy () invocation in
which package creation succeeds, regardless of whether upload or polling
succeeded or failed; when package creation fails, deploy () returns
failure without running cleanup at all. -/
theorem C1_cleanup_iff_package (w : World) :
    (createPackageOk w.site w.docs = true → (deployRun w).2 = 1)
    ∧ (createPackageOk w.site w.docs = false → (deployRun w).2 = 0) := by
  constructor <;> intro h <;> simp [deployRun, h]

/-- C1, witness: the amended theorem evaluated on a world whose docs
directory exists and one with no source directory. -/
theorem C1_witness :
    (deployRun docsOnlyWorld).2 = 1 ∧ (deployRun noSourceWorld).2 = 0 :=
  ⟨(C1_cleanup_iff_package docsOnlyWorld).1 (by decide),
   (C1_cleanup_iff_package noSourceWorld).2 (by decide)⟩

/-! ## C2: when the digest is computed -/

/-- C2, counterexample.  The claim says the digest is computed only after
the archive is closed.  In the trace of create_package over a docs
directory with one file, the digest computation (index 2) precedes the
close of the archive writer (index 3), because the checksum call sits
inside the with-block. -/
theorem C2_counterexample :
    ¬ ChecksumOnlyAfterClose
      (createPackageTrace none (some (DirTree.node ["index.md"] SubdirList.nil))) := by
  intro h
  have h2 := h 2 3 (by decide) (by decide)
  omega

/-- C2, amended.  In every successful create_package run the digest is
computed exactly once, after every archive write and before the archive
writer is closed. -/
theorem C2_checksum_between_writes_and_close (site docs : Option DirTree)
    (h : createPackageOk site docs = true) :
    ∃ i j : Nat,
      (createPackageTrace site docs)[i]? = some PkgEvent.computeChecksum
      ∧ (createPackageTrace site docs)[j]? = some PkgEvent.closeArchive
      ∧ i < j
      ∧ ∀ (k : Nat) (p : List String),
          (createPackageTrace site docs)[k]? = some (PkgEvent.addFile p) →
          k < i := by
  obtain ⟨b, t, hbt⟩ : ∃ b t, chosenSource site docs = some (b, t) := by
    cases hc : chosenSource site docs with
    | none => rw [createPackageOk, hc] at h; simp at h
    | some p => exact ⟨p.1, p.2, rfl⟩
  have htr : createPackageTrace site docs =
      PkgEvent.openArchive ::
        ((packFiles t).map PkgEvent.addFile
          ++ [PkgEvent.computeChecksum, PkgEvent.closeArchive]) := by
    rw [createPackageTrace, hbt]
  refine ⟨(packFiles t).length + 1, (packFiles t).length + 2, ?_, ?_, by omega, ?_⟩
  · rw [htr, List.getElem?_cons_succ,
      List.getElem?_append_right (by simp), List.length_map]
    simp
  · rw [htr, List.getElem?_cons_succ,
      List.getElem?_append_right (by simp), List.length_map]
    simp
  · intro k p hk
    match k with
    | 0 => rw [htr] at hk; simp at hk
    | Nat.succ m =>
      rw [htr, List.getElem?_cons_succ] at hk
      by_cases hm : m < (packFiles t).length
      · omega
      · rw [List.getElem?_append_right (by simp; omega)] at hk
        rw [List.length_map] at hk
        rcases hd : m - (packFiles t).length with _ | _ | _ <;>
          rw [hd] at hk <;> simp at hk

/-- C2, witness: the amended theorem evaluated on the docs-only world. -/
theorem C2_witness :
    ∃ i j : Nat,
      (createPackageTrace none (some (DirTree.node ["index.md"] SubdirList.nil)))[i]?
          = some PkgEvent.computeChecksum
      ∧ (createPackageTrace none (some (DirTree.node ["index.md"] SubdirList.nil)))[j]?
          = some PkgEvent.closeArchive
      ∧ i < j
      ∧ ∀ (k : Nat) (p : List String),
          (createPackageTrace none (some (DirTree.node ["index.md"] SubdirList.nil)))[k]?
              = some (PkgEvent.addFile p) → k < i :=
  C2_checksum_between_writes_and_close none
    (some (DirTree.node ["index.md"] SubdirList.nil)) (by decide)

/-! ## C3: terminal labels and the attempt budget of the poller -/

/-- If the polling loop returns the completed outcome, some query within
the remaining budget observed the literal completed label. -/
theorem monitorGo_completed (env : Nat → PollResponse) :
    ∀ (r i : Nat) (url : Option String) (q s : Nat),
      monitorGo env r i = ⟨PollOutcome.completed url, q, s⟩ →
      ∃ j : Nat, i ≤ j ∧ j < i + r ∧ isLabelAt env j "completed" = true := by
  intro r
  induction r with
  | zero =>
    intro i url q s h
    simp [monitorGo] at h
  | succ n ih =>
    intro i url q s h
    rw [monitorGo] at h
    cases henv : env i with
    | ok sd =>
      rw [henv] at h
      by_cases hc : (sd.status.getD "unknown" == "completed") = true
      · exact ⟨i, le_refl i, by omega, by simp [isLabelAt, henv, hc]⟩
      · by_cases hf : (sd.status.getD "unknown" == "failed") = true
        · simp only [Bool.not_eq_true] at hc
          simp [hc, hf] at h
        · simp only [Bool.not_eq_true] at hc hf
          simp only [hc, hf, if_false, Bool.false_eq_true] at h
          obtain ⟨j, h1, h2, h3⟩ := ih (i + 1) url q s h
          exact ⟨j, by omega, by omega, h3⟩
    | httpFailure code =>
      rw [henv] at h
      obtain ⟨j, h1, h2, h3⟩ := ih (i + 1) url q s h
      exact ⟨j, by omega, by omega, h3⟩
    | exn =>
      rw [henv] at h
      obtain ⟨j, h1, h2, h3⟩ := ih (i + 1) url q s h
      exact ⟨j, by omega, by omega, h3⟩

/-- If the polling loop returns the failed outcome, some query within
the remaining budget observed the literal failed label. -/
theorem monitorGo_failed (env : Nat → PollResponse) :
    ∀ (r i : Nat) (msg : Option String) (q s : Nat),
      monitorGo env r i = ⟨PollOutcome.failed msg, q, s⟩ →
      ∃ j : Nat, i ≤ j ∧ j < i + r ∧ isLabelAt env j "failed" = true := by
  intro r
  induction r with
  | zero =>
    intro i msg q s h
    simp [monitorGo] at h
  | succ n ih =>
    intro i msg q s h
    rw [monitorGo] at h
    cases henv : env i with
    | ok sd =>
      rw [henv] at h
      by_cases hc : (sd.status.getD "unknown" == "completed") = true
      · simp [hc] at h
      · by_cases hf : (sd.status.getD "unknown" == "failed") = true
        · exact ⟨i, le_refl i, by omega, by simp [isLabelAt, henv, hf]⟩
        · simp only [Bool.not_eq_true] at hc hf
          simp only [hc, hf, if_false, Bool.false_eq_true] at h
          obtain ⟨j, h1, h2, h3⟩ := ih (i + 1) msg q s h
          exact ⟨j, by omega, by omega, h3⟩
    | httpFailure code =>
      rw [henv] at h
      obtain ⟨j, h1, h2, h3⟩ := ih (i + 1) msg q s h
      exact ⟨j, by omega, by omega, h3⟩
    | exn =>
      rw [henv] at h
      obtain ⟨j, h1, h2, h3⟩ := ih (i + 1) msg q s h
      exact ⟨j, by omega, by omega, h3⟩

/-- When no query within the remaining budget observes a terminal label,
the polling loop consumes the whole budget and times out. -/
theorem monitorGo_timeout (env : Nat → PollResponse) :
    ∀ (r i : Nat),
      (∀ j : Nat, i ≤ j → j < i + r → isLabelAt env j "completed" = false
        ∧ isLabelAt env j "failed" = false) →
      monitorGo env r i = ⟨PollOutcome.pollTimeout, i + r, i + r⟩ := by
  intro r
  induction r with
  | zero => intro i h; simp [monitorGo]
  | succ n ih =>
    intro i h
    rw [monitorGo]
    have hi := h i (le_refl i) (by omega)
    have hrec := ih (i + 1) fun j hj1 hj2 => h j (by omega) (by omega)
    cases henv : env i with
    | ok sd =>
      have h1 : (sd.status.getD "unknown" == "completed") = false := by
        have := hi.1; simpa [isLabelAt, henv] using this
      have h2 : (sd.status.getD "unknown" == "failed") = false := by
        have := hi.2; simpa [isLabelAt, henv] using this
      simp only [h1, h2, if_false, Bool.false_eq_true]
      rw [hrec, show i + 1 + n = i + (n + 1) from by omega]
    | httpFailure code =>
      rw [hrec, show i + 1 + n = i + (n + 1) from by omega]
    | exn =>
      rw [hrec, show i + 1 + n = i + (n + 1) from by omega]

/-- C3.  The poller returns the completed outcome only when some query
observed the literal completed label, returns the failed outcome only
when some query observed the literal failed label, and when no query
among the first thirty observes either terminal label it returns the
distinguished timeout outcome after exhausting exactly thirty queries —
it never reports success without having observed completed. -/
theorem C3_poller_terminal_labels (env : Nat → PollResponse) :
    (∀ (url : Option String) (q s : Nat),
      monitorProcessing env = ⟨PollOutcome.completed url, q, s⟩ →
      ∃ j : Nat, j < maxAttempts ∧ isLabelAt env j "completed" = true)
    ∧ (∀ (msg : Option String) (q s : Nat),
      monitorProcessing env = ⟨PollOutcome.failed msg, q, s⟩ →
      ∃ j : Nat, j < maxAttempts ∧ isLabelAt env j "failed" = true)
    ∧ ((∀ j : Nat, j < maxAttempts → isLabelAt env j "completed" = false
        ∧ isLabelAt env j "failed" = false) →
      monitorProcessing env = ⟨PollOutcome.pollTimeout, 30, 30⟩) := by
  refine ⟨?_, ?_, ?_⟩
  · intro url q s h
    obtain ⟨j, h1, h2, h3⟩ := monitorGo_completed env maxAttempts 0 url q s h
    exact ⟨j, by simpa using h2, h3⟩
  · intro msg q s h
    obtain ⟨j, h1, h2, h3⟩ := monitorGo_failed env maxAttempts 0 msg q s h
    exact ⟨j, by simpa using h2, h3⟩
  · intro h
    have := monitorGo_timeout env maxAttempts 0 fun j hj1 hj2 =>
      h j (by simpa using hj2)
    simpa [monitorProcessing] using this

/-- C3, witness: on the stream that always reports processing, no query
observes a terminal label and the poller times out after exactly thirty
queries. -/
theorem C3_witness :
    monitorProcessing allProcessingEnv = ⟨PollOutcome.pollTimeout, 30, 30⟩ :=
  (C3_poller_terminal_labels allProcessingEnv).2.2 (by decide)

/-! ## C4: the six-query scenario -/

/-- C4.  When the status endpoint reports processing for the first five
queries and completed with a publication url on the sixth, the poller
returns the completed outcome carrying that url after exactly six
queries and five fixed-interval waits. -/
theorem C4_scenario_six_queries :
    monitorProcessing scenarioDEnv =
      ⟨PollOutcome.completed (some "https://example.com/docs"), 6, 5⟩ := by
  decide

/-! ## C5: upload outcome mapping and single attempt -/

/-- C5.  The upload outcome is a pure function of the HTTP status code
and body: 200 maps to success carrying the parsed body fields, 401 to
the authentication failure, 413 to the payload-too-large outcome, and
every other code to a server error carrying exactly that code and body;
upload_package performs at most one POST, and exactly one when the
package file exists. -/
theorem C5_upload_outcome_mapping :
    (∀ r : HttpResponse, r.statusCode = 200 →
      classifyResponse (HttpResult.resp r) =
        UploadOutcome.success r.jsonUploadId r.jsonStatus)
    ∧ (∀ r : HttpResponse, r.statusCode = 401 →
      classifyResponse (HttpResult.resp r) = UploadOutcome.authFailure)
    ∧ (∀ r : HttpResponse, r.statusCode = 413 →
      classifyResponse (HttpResult.resp r) = UploadOutcome.payloadTooLarge)
    ∧ (∀ r : HttpResponse, r.statusCode ≠ 200 → r.statusCode ≠ 401 →
      r.statusCode ≠ 413 →
      classifyResponse (HttpResult.resp r) =
        UploadOutcome.serverError r.statusCode r.body)
    ∧ (∀ pkgExists : Bool, uploadPostCount pkgExists ≤ 1)
    ∧ uploadPostCount true = 1 := by
  refine ⟨?_, ?_, ?_, ?_, ?_, rfl⟩
  · intro r h; simp [classifyResponse, h]
  · intro r h; simp [classifyResponse, h]
  · intro r h; simp [classifyResponse, h]
  · intro r h1 h2 h3; simp [classifyResponse, beq_iff_eq, h1, h2, h3]
  · intro b; cases b <;> simp [uploadPostCount]

/-- C5, witness: the mapping evaluated at 200, 401, 413 and 500. -/
theorem C5_witness :
    classifyResponse (HttpResult.resp ⟨200, some "u1", some "queued", "b"⟩) =
      UploadOutcome.success (some "u1") (some "queued")
    ∧ classifyResponse (HttpResult.resp ⟨401, none, none, "denied"⟩) =
      UploadOutcome.authFailure
    ∧ classifyResponse (HttpResult.resp ⟨413, none, none, "big"⟩) =
      UploadOutcome.payloadTooLarge
    ∧ classifyResponse (HttpResult.resp ⟨500, none, none, "oops"⟩) =
      UploadOutcome.serverError 500 "oops"
    ∧ uploadPostCount true = 1 :=
  ⟨C5_upload_outcome_mapping.1 _ rfl,
   C5_upload_outcome_mapping.2.1 _ rfl,
   C5_upload_outcome_mapping.2.2.1 _ rfl,
   C5_upload_outcome_mapping.2.2.2.1 _ (by decide) (by decide) (by decide),
   C5_upload_outcome_mapping.2.2.2.2.2⟩

/-! ## C6: hidden entries are excluded and the file count is exact -/

mutual

/-- The number of archive entries a walk adds below a directory equals
the number of non-hidden files of that directory. -/
theorem packFilesAt_length : ∀ (pre : List String) (t : DirTree),
    (packFilesAt pre t).length = specVisibleFileCount t
  | pre, DirTree.node fs ds => by
    rw [packFilesAt, specVisibleFileCount, List.length_append, List.length_map,
      packSubdirsAt_length pre ds]

/-- The subdirectory form of the entry-count lemma. -/
theorem packSubdirsAt_length : ∀ (pre : List String) (ds : SubdirList),
    (packSubdirsAt pre ds).length = specVisibleFileCountSub ds
  | _, SubdirList.nil => by rw [packSubdirsAt, specVisibleFileCountSub]; rfl
  | pre, SubdirList.cons name t rest => by
    rw [packSubdirsAt, specVisibleFileCountSub, List.length_append,
      packSubdirsAt_length pre rest]
    by_cases h : isHiddenName name
    · simp [h]
    · simp [h, packFilesAt_length (pre ++ [name]) t]

end

mutual

/-- When the path so far has no hidden component, neither has any
archive entry the walk produces below it. -/
theorem packFilesAt_clean : ∀ (pre : List String) (t : DirTree),
    (∀ c ∈ pre, isHiddenName c = false) →
    ∀ p ∈ packFilesAt pre t, ∀ c ∈ p, isHiddenName c = false
  | pre, DirTree.node fs ds => by
    intro hpre p hp
    rw [packFilesAt] at hp
    rcases List.mem_append.1 hp with hp | hp
    · obtain ⟨f, hf, rfl⟩ := List.mem_map.1 hp
      have hf2 := (List.mem_filter.1 hf).2
      intro c hc
      rcases List.mem_append.1 hc with hc | hc
      · exact hpre c hc
      · rw [List.mem_singleton.1 hc]
        simpa using hf2
    · exact packSubdirsAt_clean pre ds hpre p hp

/-- The subdirectory form of the hidden-exclusion lemma. -/
theorem packSubdirsAt_clean : ∀ (pre : List String) (ds : SubdirList),
    (∀ c ∈ pre, isHiddenName c = false) →
    ∀ p ∈ packSubdirsAt pre ds, ∀ c ∈ p, isHiddenName c = false
  | pre, SubdirList.nil => by
    intro _ p hp
    rw [packSubdirsAt] at hp
    simp at hp
  | pre, SubdirList.cons name t rest => by
    intro hpre p hp
    rw [packSubdirsAt] at hp
    rcases List.mem_append.1 hp with hp | hp
    · by_cases h : isHiddenName name
      · rw [if_pos h] at hp; simp at hp
      · rw [if_neg h] at hp
        refine packFilesAt_clean (pre ++ [name]) t ?_ p hp
        intro c hc
        rcases List.mem_append.1 hc with hc | hc
        · exact hpre c hc
        · rw [List.mem_singleton.1 hc]
          simpa using h
    · exact packSubdirsAt_clean pre rest hpre p hp

end

/-- C6.  For every directory tree, packaging excludes every hidden entry
together with all of its descendants — no component of any archive entry
path is hidden — and the number of entries added equals the number of
non-hidden files of the tree. -/
theorem C6_hidden_excluded_count (t : DirTree) :
    (packFiles t).length = specVisibleFileCount t
    ∧ ∀ p ∈ packFiles t, ∀ c ∈ p, isHiddenName c = false :=
  ⟨packFilesAt_length [] t, packFilesAt_clean [] t (by simp)⟩

/-- C6, witness: the count and the exclusion evaluated on the concrete
tree. -/
theorem C6_witness :
    (packFiles packWitnessTree).length = specVisibleFileCount packWitnessTree
    ∧ ["sub", "b.md"] ∈ packFiles packWitnessTree
    ∧ isHiddenName "b.md" = false :=
  ⟨(C6_hidden_excluded_count packWitnessTree).1,
   by decide,
   (C6_hidden_excluded_count packWitnessTree).2 ["sub", "b.md"] (by decide)
     "b.md" (by decide)⟩

/-! ## C7: the configuration check of the constructor -/

/-- C7, counterexample.  The claim says construction succeeds whenever
all three configuration values are non-empty.  The url value of slashes
only is non-empty, yet construction fails, because the url is stripped
of trailing slashes before the truthiness check. -/
theorem C7_counterexample :
    ("///" : String) ≠ "" ∧ ("u" : String) ≠ "" ∧ ("p" : String) ≠ ""
    ∧ isCfgError (initUploader (some "///") (some "u") (some "p")) = true := by
  decide

/-- C7, amended.  Construction fails with the configuration error when
any of the three environment values is absent or empty, and on that
failure the program performs no network activity; construction succeeds
whenever the username and password are non-empty and the url is
non-empty after stripping trailing slashes. -/
theorem C7_config_check (url user pass : Option String) :
    ((url.getD "" = "" ∨ user.getD "" = "" ∨ pass.getD "" = "") →
      isCfgError (initUploader url user pass) = true)
    ∧ (isCfgError (initUploader url user pass) = true →
      ∀ w, mainNetworkPosts url user pass w = 0)
    ∧ (pyRstripSlash (url.getD "") ≠ "" → user.getD "" ≠ "" →
      pass.getD "" ≠ "" →
      initUploader url user pass =
        Except.ok ⟨pyRstripSlash (url.getD ""), user.getD "", pass.getD ""⟩) := by
  refine ⟨?_, ?_, ?_⟩
  · intro h
    have hcond : (pyRstripSlash (url.getD "") == "" || user.getD "" == ""
        || pass.getD "" == "") = true := by
      rcases h with h | h | h <;> simp [h, pyRstripSlash]
    rw [initUploader, if_pos hcond]
    rfl
  · intro h w
    rw [mainNetworkPosts]
    cases hinit : initUploader url user pass with
    | error e => rfl
    | ok cfg => rw [hinit] at h; simp [isCfgError] at h
  · intro h1 h2 h3
    have hcond : (pyRstripSlash (url.getD "") == "" || user.getD "" == ""
        || pass.getD "" == "") = false := by
      simp [h1, h2, h3]
    rw [initUploader, if_neg (by simp [hcond])]

/-- C7, witness: the amended theorem evaluated at an absent url (failure
with no network activity) and at three non-empty values (success). -/
theorem C7_witness :
    isCfgError (initUploader none (some "u") (some "p")) = true
    ∧ mainNetworkPosts none (some "u") (some "p") noSourceWorld = 0
    ∧ initUploader (some "https://ft.example.com") (some "u") (some "p") =
      Except.ok ⟨pyRstripSlash ((some "https://ft.example.com").getD ""),
        (some "u").getD "", (some "p").getD ""⟩ :=
  ⟨(C7_config_check none (some "u") (some "p")).1 (Or.inl rfl),
   (C7_config_check none (some "u") (some "p")).2.1
     ((C7_config_check none (some "u") (some "p")).1 (Or.inl rfl)) noSourceWorld,
   (C7_config_check (some "https://ft.example.com") (some "u") (some "p")).2.2
     (by decide) (by decide) (by decide)⟩

/-! ## C9: hash lines inside fenced code blocks count as headings -/

/-- C9.  The heading check treats every line beginning with a hash mark
as a heading, including lines inside fenced code blocks: on the file
whose only real Markdown H1 is its title, the hash comment inside the
fenced block is counted as a second H1, so the single-H1 rule records an
error and the check fails even though the fence-aware count is one. -/
theorem C9_fenced_hash_counted :
    realH1Count fencedDoc = 1
    ∧ (headingsOf fencedDoc).countP (fun h => h.1 == 1) = 2
    ∧ (checkHeadingStructure "guide.md" fencedDoc).1 ≠ []
    ∧ (checkHeadingStructure "guide.md" fencedDoc).2.2 = false := by
  decide

/-! ## C10: fixed source directories and fallback -/

/-- C10.  Packaging uses the fixed site directory whenever it exists and
otherwise falls back to the fixed docs directory; package creation fails,
writing no archive event, exactly when neither directory exists. -/
theorem C10_source_dir_fallback (site docs : Option DirTree) :
    (∀ t, site = some t → chosenSource site docs = some (true, t))
    ∧ (site = none → ∀ t, docs = some t →
      chosenSource site docs = some (false, t))
    ∧ (createPackageOk site docs = false ↔ site = none ∧ docs = none)
    ∧ (createPackageOk site docs = false → createPackageTrace site docs = []) := by
  refine ⟨?_, ?_, ?_, ?_⟩
  · intro t h; subst h; rfl
  · intro h t h2; subst h; subst h2; rfl
  · cases site <;> cases docs <;> simp [createPackageOk, chosenSource]
  · intro h
    cases site <;> cases docs <;>
      simp_all [createPackageOk, chosenSource, createPackageTrace]

/-- C10, witness: the fallback evaluated with both directories present,
with only docs present, and with neither present. -/
theorem C10_witness :
    chosenSource (some siteTree) (some docsTree) = some (true, siteTree)
    ∧ chosenSource none (some docsTree) = some (false, docsTree)
    ∧ createPackageTrace none none = [] :=
  ⟨(C10_source_dir_fallback (some siteTree) (some docsTree)).1 siteTree rfl,
   (C10_source_dir_fallback none (some docsTree)).2.1 rfl docsTree rfl,
   (C10_source_dir_fallback none none).2.2.2 (by decide)⟩

/-! ## C8: errors accumulate across files and decide the run flag -/

/-- A successful heading check records no error. -/
theorem checkHeading_ok (path content : String) :
    (checkHeadingStructure path content).2.2 = true →
    (checkHeadingStructure path content).1 = [] := by
  simp only [checkHeadingStructure]
  intro h
  simp [h]

/-- A successful code-block check records no error. -/
theorem checkCodeBlocks_ok (path content : String) :
    (checkCodeBlocks path content).2.2 = true →
    (checkCodeBlocks path content).1 = [] := by
  simp only [checkCodeBlocks]
  intro h
  simp only [Bool.not_eq_true'] at h
  simp [h]

/-- A successful link scan records no error. -/
theorem linkScan_ok (fsEx : String → Bool) (path : String) :
    ∀ links, (linkScan fsEx path links).2.2 = true →
      (linkScan fsEx path links).1 = [] := by
  intro links
  induction links with
  | nil => intro _; rfl
  | cons l rest ih =>
    obtain ⟨text, url⟩ := l
    simp only [linkScan]
    by_cases hc : (endsWithChars ['.', 'm', 'd'] url
        && !startsWithChars ['h', 't', 't', 'p'] url
        && !fsEx ("docs/" ++ String.mk url)) = true
    · simp [hc]
    · simp only [Bool.not_eq_true] at hc
      simp only [hc, if_false, Bool.false_eq_true, List.isEmpty_nil,
        List.nil_append, Bool.true_and]
      exact ih

/-- A successful link check records no error. -/
theorem checkLinks_ok (fsEx : String → Bool) (path content : String) :
    (checkLinks fsEx path content).2.2 = true →
    (checkLinks fsEx path content).1 = [] :=
  linkScan_ok fsEx path (findLinks content)

/-- A successful line-ending check records no error. -/
theorem checkLineEndings_ok (path content : String) :
    (checkLineEndings path content).2.2 = true →
    (checkLineEndings path content).1 = [] := by
  rw [checkLineEndings]
  split <;> simp

/-- A successful file lint records no error. -/
theorem lintFile_ok (fsEx : String → Bool) (path content : String) :
    (lintFile fsEx path content).2 = true →
    (lintFile fsEx path content).1.errors = [] := by
  simp only [lintFile]
  intro h
  simp only [Bool.and_eq_true] at h
  obtain ⟨⟨⟨⟨h1, h2⟩, h3⟩, h4⟩, h5⟩ := h
  rw [checkHeading_ok path content h1, checkCodeBlocks_ok path content h2,
    checkLinks_ok fsEx path content h3, checkLineEndings_ok path content h4]
  rfl

/-- The lint loop appends exactly the per-file errors of every file to
the report it was given. -/
theorem lintRunGo_errors (fsEx : String → Bool) :
    ∀ (fs : List (String × String)) (rep : Report) (ok : Bool),
      (lintRunGo fsEx fs rep ok).1.errors
        = rep.errors ++ lintErrorsConcat fsEx fs := by
  intro fs
  induction fs with
  | nil => intro rep ok; simp [lintRunGo, lintErrorsConcat]
  | cons f rest ih =>
    intro rep ok
    simp only [lintRunGo, lintErrorsConcat]
    rw [ih]
    simp [List.append_assoc]

/-- The flag of the lint loop is the conjunction of the incoming flag
with every per-file flag. -/
theorem lintRunGo_flag (fsEx : String → Bool) :
    ∀ (fs : List (String × String)) (rep : Report) (ok : Bool),
      (lintRunGo fsEx fs rep ok).2
        = (ok && fs.all fun f => (lintFile fsEx f.1 f.2).2) := by
  intro fs
  induction fs with
  | nil => intro rep ok; simp [lintRunGo]
  | cons f rest ih =>
    intro rep ok
    simp only [lintRunGo, List.all_cons]
    rw [ih, Bool.and_assoc]

/-- When some file of a lint run records an error, some per-file flag is
false. -/
theorem lintErrorsConcat_ne_nil (fsEx : String → Bool) :
    ∀ fs : List (String × String), lintErrorsConcat fsEx fs ≠ [] →
      (fs.all fun f => (lintFile fsEx f.1 f.2).2) = false := by
  intro fs
  induction fs with
  | nil => intro h; simp [lintErrorsConcat] at h
  | cons f rest ih =>
    intro h
    rw [lintErrorsConcat] at h
    by_cases hf : (lintFile fsEx f.1 f.2).1.errors = []
    · rw [hf, List.nil_append] at h
      simp [List.all_cons, ih h]
    · have hff : (lintFile fsEx f.1 f.2).2 = false := by
        by_contra hb
        simp only [Bool.not_eq_false] at hb
        exact hf (lintFile_ok fsEx f.1 f.2 hb)
      simp [List.all_cons, hff]

/-- A successful navigation scan records no error. -/
theorem navScan_ok (fsEx : String → Bool) (path : String) :
    ∀ items, (navScan fsEx path items).2 = true →
      (navScan fsEx path items).1 = [] := by
  intro items
  induction items with
  | nil => intro _; rfl
  | cons item rest ih =>
    cases item with
    | str s => simpa [navScan] using ih
    | list l => simpa [navScan] using ih
    | dict es =>
      simp only [navScan]
      intro h
      rw [Bool.and_eq_true] at h
      obtain ⟨h1, h2⟩ := h
      rw [List.isEmpty_iff] at h1
      rw [h1, List.nil_append]
      exact ih h2

/-- The mkdocs nav component records no error when it succeeds. -/
theorem mkdocsNav_ok (fsEx : String → Bool) (path : String)
    (data : List (String × Yaml)) :
    (mkdocsNav fsEx path data).2 = true → (mkdocsNav fsEx path data).1 = [] := by
  rw [mkdocsNav]
  cases hl : List.lookup "nav" data with
  | none => intro _; rfl
  | some v =>
    cases v with
    | str s => intro _; rfl
    | dict es => intro _; rfl
    | list items => exact navScan_ok fsEx path items

/-- The theme component records no error when it succeeds. -/
theorem mkdocsTheme_ok (path : String) (data : List (String × Yaml)) :
    (mkdocsTheme path data).2.2 = true → (mkdocsTheme path data).1 = [] := by
  rw [mkdocsTheme]
  cases hl : List.lookup "theme" data with
  | none => intro _; rfl
  | some v =>
    cases v with
    | str s => intro _; rfl
    | dict es => intro _; rfl
    | list l => intro h; simp at h

/-- A successful mkdocs validation records no error. -/
theorem validateMkdocs_some_ok (fsEx : String → Bool) (path : String)
    (data : List (String × Yaml)) :
    ∀ r, validateMkdocs fsEx path data = some r → r.2.2 = true → r.1 = [] := by
  intro r h hok
  rw [validateMkdocs] at h
  by_cases hc : mkdocsDirCrashes data = true
  · rw [if_pos hc] at h; exact absurd h (by simp)
  · rw [if_neg hc] at h
    have h2 := Option.some.inj h
    rw [← h2] at hok ⊢
    simp only at hok ⊢
    rw [Bool.and_eq_true, Bool.and_eq_true, Bool.and_eq_true,
      Bool.and_eq_true] at hok
    obtain ⟨⟨⟨⟨h1, h2⟩, h3⟩, h4⟩, h5⟩ := hok
    simp only [List.isEmpty_iff] at h1 h2 h3
    simp [h1, h2, h3, mkdocsNav_ok fsEx path data h4, mkdocsTheme_ok path data h5]

/-- A successful job scan records no error. -/
theorem jobScan_ok (path : String) :
    ∀ jobs, (jobScan path jobs).2 = true → (jobScan path jobs).1 = [] := by
  intro jobs
  induction jobs with
  | nil => intro _; rfl
  | cons j rest ih =>
    obtain ⟨name, cfg⟩ := j
    cases cfg with
    | str s => intro h; simp [jobScan] at h
    | list l => intro h; simp [jobScan] at h
    | dict c =>
      simp only [jobScan]
      intro h
      rw [Bool.and_eq_true, Bool.and_eq_true] at h
      obtain ⟨⟨h1, h2⟩, h3⟩ := h
      simp only [List.isEmpty_iff] at h1 h2
      simp [h1, h2, ih h3]

/-- The jobs component records no error when it succeeds. -/
theorem workflowJobs_ok (path : String) (data : List (String × Yaml)) :
    (workflowJobs path data).2 = true → (workflowJobs path data).1 = [] := by
  rw [workflowJobs]
  cases hl : List.lookup "jobs" data with
  | none => intro _; rfl
  | some v =>
    cases v with
    | str s => intro h; simp at h
    | list l => intro h; simp at h
    | dict jobs => exact jobScan_ok path jobs

/-- A successful workflow validation records no error. -/
theorem validateGithubWorkflow_ok (path : String) (data : List (String × Yaml)) :
    (validateGithubWorkflow path data).2.2 = true →
    (validateGithubWorkflow path data).1 = [] := by
  rw [validateGithubWorkflow]
  intro h
  simp only at h ⊢
  rw [Bool.and_eq_true] at h
  obtain ⟨h1, h2⟩ := h
  simp only [List.isEmpty_iff] at h1
  simp [h1, workflowJobs_ok path data h2]

/-- A successful service scan records no error. -/
theorem serviceScan_ok (path : String) :
    ∀ svcs, (serviceScan path svcs).2 = true → (serviceScan path svcs).1 = [] := by
  intro svcs
  induction svcs with
  | nil => intro _; rfl
  | cons sv rest ih =>
    obtain ⟨name, cfg⟩ := sv
    cases cfg with
    | str s => intro h; simp [serviceScan] at h
    | list l => intro h; simp [serviceScan] at h
    | dict c =>
      simp only [serviceScan]
      intro h
      rw [Bool.and_eq_true] at h
      obtain ⟨h1, h2⟩ := h
      simp only [List.isEmpty_iff] at h1
      simp [h1, ih h2]

/-- The services component records no error when it succeeds. -/
theorem composeServices_ok (path : String) (data : List (String × Yaml)) :
    (composeServices path data).2 = true → (composeServices path data).1 = [] := by
  rw [composeServices]
  cases hl : List.lookup "services" data with
  | none => intro h; simp at h
  | some v =>
    cases v with
    | str s => intro h; simp at h
    | list l => intro h; simp at h
    | dict svcs => exact serviceScan_ok path svcs

/-- A successful compose validation records no error. -/
theorem validateDockerCompose_ok (path : String) (data : List (String × Yaml)) :
    (validateDockerCompose path data).2.2 = true →
    (validateDockerCompose path data).1 = [] := by
  rw [validateDockerCompose]
  exact composeServices_ok path data

/-- A file validation that returned a true flag recorded no error. -/
theorem validateFile_ok (fsEx : String → Bool) (path : String)
    (input : YamlInput) :
    ∀ rep flag, validateFile fsEx path input = some (rep, flag) →
      flag = true → rep.errors = [] := by
  intro rep flag h hflag
  cases input with
  | readError =>
    rw [validateFile] at h
    injection h with h2
    rw [Prod.mk.injEq] at h2
    obtain ⟨hr, hf⟩ := h2
    subst hf
    exact absurd hflag (by simp)
  | parseError =>
    rw [validateFile] at h
    injection h with h2
    rw [Prod.mk.injEq] at h2
    obtain ⟨hr, hf⟩ := h2
    subst hf
    exact absurd hflag (by simp)
  | empty =>
    rw [validateFile] at h
    injection h with h2
    rw [Prod.mk.injEq] at h2
    obtain ⟨hr, hf⟩ := h2
    subst hr
    rfl
  | doc data =>
    rw [validateFile] at h
    cases hr : runSpecificValidation fsEx path data with
    | none => rw [hr] at h; exact absurd h (by simp)
    | some r =>
      rw [hr] at h
      injection h with h2
      rw [Prod.mk.injEq] at h2
      obtain ⟨hrep, hfl⟩ := h2
      subst hrep
      subst hfl
      rw [runSpecificValidation] at hr
      by_cases h1 : (fileNameOf path == "mkdocs.yml") = true
      · rw [if_pos h1] at hr
        exact validateMkdocs_some_ok fsEx path data r hr hflag
      · rw [if_neg h1] at hr
        by_cases h2 : isWorkflowPath path = true
        · rw [if_pos h2] at hr
          have h3 := Option.some.inj hr
          rw [← h3] at hflag ⊢
          exact validateGithubWorkflow_ok path data hflag
        · rw [if_neg h2] at hr
          by_cases h4 : (fileNameOf path == "docker-compose.yml") = true
          · rw [if_pos h4] at hr
            have h3 := Option.some.inj hr
            rw [← h3] at hflag ⊢
            exact validateDockerCompose_ok path data hflag
          · rw [if_neg h4] at hr
            have h3 := Option.some.inj hr
            rw [← h3]

/-- The validation loop, when it completes, appends exactly the per-file
errors of every file, and its flag is the conjunction of the incoming
flag with every per-file flag. -/
theorem yamlRunGo_spec (fsEx : String → Bool) :
    ∀ (fs : List (String × YamlInput)) (rep : Report) (ok : Bool)
      (rep2 : Report) (flag : Bool),
      yamlRunGo fsEx fs rep ok = some (rep2, flag) →
      rep2.errors = rep.errors ++ yamlErrorsConcat fsEx fs
        ∧ flag = (ok && fs.all fun f => yamlFileOk fsEx f) := by
  intro fs
  induction fs with
  | nil =>
    intro rep ok rep2 flag h
    rw [yamlRunGo] at h
    injection h with h2
    rw [Prod.mk.injEq] at h2
    obtain ⟨hr, hf⟩ := h2
    subst hr
    subst hf
    simp [yamlErrorsConcat]
  | cons f rest ih =>
    intro rep ok rep2 flag h
    rw [yamlRunGo] at h
    cases hv : validateFile fsEx f.1 f.2 with
    | none => rw [hv] at h; exact absurd h (by simp)
    | some r =>
      rw [hv] at h
      obtain ⟨h1, h2⟩ := ih _ _ _ _ h
      constructor
      · rw [h1]
        simp [yamlErrorsConcat, yamlFileErrors, hv, List.append_assoc]
      · rw [h2]
        simp [List.all_cons, yamlFileOk, hv, Bool.and_assoc]

/-- When some file of a completed validation run records an error, some
per-file flag is false. -/
theorem yamlErrorsConcat_ne_nil (fsEx : String → Bool) :
    ∀ fs : List (String × YamlInput), yamlErrorsConcat fsEx fs ≠ [] →
      (fs.all fun f => yamlFileOk fsEx f) = false := by
  intro fs
  induction fs with
  | nil => intro h; simp [yamlErrorsConcat] at h
  | cons f rest ih =>
    intro h
    rw [yamlErrorsConcat] at h
    by_cases hf : yamlFileErrors fsEx f = []
    · rw [hf, List.nil_append] at h
      simp [List.all_cons, ih h]
    · have hff : yamlFileOk fsEx f = false := by
        rw [yamlFileOk]
        cases hv : validateFile fsEx f.1 f.2 with
        | none => rfl
        | some r =>
          simp only
          by_contra hb
          simp only [Bool.not_eq_false] at hb
          apply hf
          rw [yamlFileErrors, hv]
          exact validateFile_ok fsEx f.1 f.2 r.1 r.2 (by rw [hv]) hb
      simp [List.all_cons, hff]

/-- C8.  In every linter run and in every validator run that completes,
the final error list is exactly the concatenation of the errors each
file records on its own — an error recorded for one file never truncates
the contribution of later files — and whenever at least one error was
recorded, the run-level success flag is false. -/
theorem C8_errors_accumulate :
    (∀ (fsEx : String → Bool) (files : List (String × String)),
      (lintAllFiles fsEx files).1.errors = lintErrorsConcat fsEx files
      ∧ ((lintAllFiles fsEx files).1.errors ≠ [] →
        (lintAllFiles fsEx files).2 = false))
    ∧ (∀ (fsEx : String → Bool) (files : List (String × YamlInput))
        (rep : Report) (flag : Bool),
      validateAllFiles fsEx files = some (rep, flag) →
      rep.errors = yamlErrorsConcat fsEx files
        ∧ (rep.errors ≠ [] → flag = false)) := by
  constructor
  · intro fsEx files
    by_cases hemp : files.isEmpty = true
    · have hnil : files = [] := by simpa using hemp
      subst hnil
      simp [lintAllFiles, lintErrorsConcat]
    · rw [lintAllFiles, if_neg hemp]
      constructor
      · rw [lintRunGo_errors]; rfl
      · intro h
        rw [lintRunGo_errors] at h
        simp only [List.nil_append] at h
        rw [lintRunGo_flag]
        simp [lintErrorsConcat_ne_nil fsEx files h]
  · intro fsEx files rep flag h
    by_cases hemp : files.isEmpty = true
    · have hnil : files = [] := by simpa using hemp
      subst hnil
      rw [validateAllFiles] at h
      simp only [List.isEmpty_nil, if_true] at h
      injection h with h2
      rw [Prod.mk.injEq] at h2
      obtain ⟨hr, hf⟩ := h2
      subst hr
      simp [yamlErrorsConcat]
    · rw [validateAllFiles, if_neg hemp] at h
      obtain ⟨h1, h2⟩ := yamlRunGo_spec fsEx files ⟨[], []⟩ true rep flag h
      constructor
      · rw [h1]; rfl
      · intro hne
        rw [h1] at hne
        simp only [List.nil_append] at hne
        rw [h2]
        simp [yamlErrorsConcat_ne_nil fsEx files hne]

/-- C8, witness: the accumulation theorem evaluated on concrete runs in
which the first file records errors. -/
theorem C8_witness :
    (lintAllFiles (fun _ => false) lintWitnessFiles).1.errors
      = lintErrorsConcat (fun _ => false) lintWitnessFiles
    ∧ (lintAllFiles (fun _ => false) lintWitnessFiles).2 = false
    ∧ (⟨["❌ mkdocs.yml: Missing required field: site_name",
         "❌ mkdocs.yml: Missing required field: docs_dir"],
        ["⚠️  app.yml: Empty YAML file"]⟩ : Report).errors
      = yamlErrorsConcat (fun _ => false) yamlWitnessFiles
    ∧ (false : Bool) = false := by
  have hl := C8_errors_accumulate.1 (fun _ => false) lintWitnessFiles
  have hy := C8_errors_accumulate.2 (fun _ => false) yamlWitnessFiles
    ⟨["❌ mkdocs.yml: Missing required field: site_name",
      "❌ mkdocs.yml: Missing required field: docs_dir"],
     ["⚠️  app.yml: Empty YAML file"]⟩ false (by decide)
  exact ⟨hl.1, hl.2 (by decide), hy.1, hy.2 (by decide)⟩

end DocsFlow
